import Mathlib

/-!
# Verification of the accessibility-audit aggregation/diff/priority engine

Shallow embedding of the core computational components of the repository:

* `lib/diff/diffRules.js` — `getOccurrenceKey`, `diffRules`
* `lib/aggregate/aggregateRules.js` — `aggregateRules`
* the priority-ranking / summary block of the processing scripts
* `lib/io/historyDiscovery.js` — per-file totals of `getHistoryData`

File-system access (reading the previous snapshot, listing the history
directory) is I/O; it is modelled by passing the parsed file content as an
explicit `Option` argument: `none` stands for "file absent or unparseable",
exactly the two situations in which the JS leaves `prevAudit = null`.
-/

/-! ## String helpers (JS primitives used by the engine) -/

/-- JS `page.replace(/\/$/, '')`: drop one trailing `'/'` if present. -/
def stripTrailingSlash (s : String) : String :=
  match s.data.getLast? with
  | some '/' => String.mk s.data.dropLast
  | _ => s

/-- JS `s.split('#')[0]`: the prefix of `s` before the first `'#'`
(the whole string when there is no `'#'`). -/
def takeUntilHash (s : String) : String :=
  String.mk (s.data.takeWhile (fun c => c ≠ '#'))

/-- JS `Array.prototype.join(sep)`. -/
def joinSep (sep : String) : List String → String
  | [] => ""
  | [x] => x
  | x :: y :: xs => x ++ sep ++ joinSep sep (y :: xs)

/-- Worker for `jsSet`: skip elements already seen, keep first occurrences
in order. -/
def jsSetGo {α : Type} [DecidableEq α] (seen : List α) : List α → List α
  | [] => []
  | x :: xs => if x ∈ seen then jsSetGo seen xs else x :: jsSetGo (seen ++ [x]) xs

/-- Insertion-ordered deduplication: the element sequence of a JS `Set`
built by inserting the elements of `l` in order (first occurrence kept). -/
def jsSet {α : Type} [DecidableEq α] (l : List α) : List α :=
  jsSetGo [] l

/-! ## SnapshotDiffer (`lib/diff/diffRules.js`) -/

/-- The `target` of an occurrence: a fresh Axe result carries the selector
path as an array, an occurrence loaded from a previous JSON snapshot carries
it pre-joined as a string (comment at `diffRules.js:12-13`). -/
inductive Target where
  | arr (segments : List String)
  | str (selector : String)
deriving Repr, DecidableEq

/-- `diffRules.js:14-16` — join an array target with `' > '`, pass a string
target through. -/
def selectorOf : Target → String
  | Target.arr segments => joinSep " > " segments
  | Target.str selector => selector

/-- `diffRules.js:9-19` `getOccurrenceKey`: the page URL first loses one
trailing slash, then everything from the first `'#'` on, and is joined with
the rule id and the selector by `'|'`. -/
def getOccurrenceKey (page ruleId : String) (target : Target) : String :=
  takeUntilHash (stripTrailingSlash page) ++ "|" ++ ruleId ++ "|" ++ selectorOf target

/-- An occurrence as seen by the differ: current occurrences enter with the
two annotation fields absent (`none`); the differ produces occurrences with
both fields set. -/
structure DOcc where
  page : String
  target : Target
  isNewOccurrence : Option Bool := none
  isNewPage : Option Bool := none
deriving Repr, DecidableEq

/-- The `diff` record attached to a rule (`diffRules.js:67-72`); `newPages`
is a JS `Set`, kept here in insertion order. -/
structure DiffData where
  new : Nat
  resolved : Nat
  unchanged : Nat
  newPages : List String
deriving Repr, DecidableEq

/-- A rule as seen by the differ: `diff` and `isNewRule` are absent on
input and set by `diffRules`. Previous-snapshot rules use the same shape
(their `diff`/`isNewRule` fields are never read). -/
structure DRule where
  id : String
  impact : String
  occurrences : List DOcc
  diff : Option DiffData := none
  isNewRule : Option Bool := none
deriving Repr, DecidableEq

/-- Occurrence keys of a rule (`diffRules.js:52` and `:58`). -/
def occKeys (r : DRule) : List String :=
  r.occurrences.map (fun o => getOccurrenceKey o.page r.id o.target)

/-- Slash-stripped pages of a rule's occurrences (`diffRules.js:50`, `:78`). -/
def occPages (r : DRule) : List String :=
  r.occurrences.map (fun o => stripTrailingSlash o.page)

/-- Object-key indexing by repeated assignment (`diffRules.js:47-55`):
`prevOccurrencesByRule[rule.id] = …` in a `forEach` means the last rule
with a given id wins. -/
def lookupLast (rs : List DRule) (id : String) : Option DRule :=
  rs.foldl (fun acc r => if r.id = id then some r else acc) none

/-- `prevOccurrencesByRule[rule.id] || new Set()` (`diffRules.js:59`). -/
def prevKeySet (prev : Option (List DRule)) (id : String) : List String :=
  match prev with
  | none => []
  | some rs =>
    match lookupLast rs id with
    | none => []
    | some r => occKeys r

/-- `newCount` (`diffRules.js:63`): distinct current keys absent from the
previous key set; `0` when there is no previous audit. -/
def ruleNewCount (prev : Option (List DRule)) (r : DRule) : Nat :=
  match prev with
  | none => 0
  | some _ =>
    ((jsSet (occKeys r)).filter (fun k => decide (k ∉ prevKeySet prev r.id))).length

/-- `resolvedCount` (`diffRules.js:64`): distinct previous keys absent from
the current keys; `0` when there is no previous audit. -/
def ruleResolvedCount (prev : Option (List DRule)) (r : DRule) : Nat :=
  match prev with
  | none => 0
  | some _ =>
    ((jsSet (prevKeySet prev r.id)).filter (fun k => decide (k ∉ occKeys r))).length

/-- `unchangedCount` (`diffRules.js:65`): distinct current keys present in
the previous key set; with no previous audit, the full (undeduplicated)
current key count. -/
def ruleUnchangedCount (prev : Option (List DRule)) (r : DRule) : Nat :=
  match prev with
  | none => (occKeys r).length
  | some _ =>
    ((jsSet (occKeys r)).filter (fun k => decide (k ∈ prevKeySet prev r.id))).length

/-- `rule.diff.newPages` (`diffRules.js:71`, `:77-81`): stays the initial
empty set unless a previous audit exists and indexed this rule id, in which
case it is the set of current (slash-stripped) pages absent from the rule's
previous page set. -/
def ruleNewPages (prev : Option (List DRule)) (r : DRule) : List String :=
  match prev with
  | none => []
  | some rs =>
    match lookupLast rs r.id with
    | none => []
    | some pr => (jsSet (occPages r)).filter (fun p => decide (p ∉ occPages pr))

/-- `rule.isNewRule` (`diffRules.js:74`). -/
def ruleIsNew (prev : Option (List DRule)) (r : DRule) : Bool :=
  match prev with
  | none => false
  | some rs => ¬ rs.any (fun pr => pr.id = r.id)

/-- The per-rule transform of `diffRules.js:57-94`: attach `diff` and
`isNewRule`, and replace `occurrences` by annotated copies
(`{...o, isNewOccurrence, isNewPage}`). -/
def diffOneRule (prev : Option (List DRule)) (r : DRule) : DRule :=
  { r with
    diff := some
      { new := ruleNewCount prev r
        resolved := ruleResolvedCount prev r
        unchanged := ruleUnchangedCount prev r
        newPages := ruleNewPages prev r }
    isNewRule := some (ruleIsNew prev r)
    occurrences := r.occurrences.map (fun o =>
      { o with
        isNewOccurrence := some (match prev with
          | none => false
          | some _ => decide (getOccurrenceKey o.page r.id o.target ∉ prevKeySet prev r.id))
        isNewPage := some (match prev with
          | none => false
          | some _ => decide (stripTrailingSlash o.page ∈ ruleNewPages prev r)) }) }

/-- `diffTotals` (`diffRules.js:41`, `:96-98`): the three counters summed
over the current rules. -/
structure DiffTotals where
  newViolations : Nat
  resolvedViolations : Nat
  unchanged : Nat
deriving Repr, DecidableEq

def diffTotalsOf (prev : Option (List DRule)) (rules : List DRule) : DiffTotals :=
  { newViolations := (rules.map (ruleNewCount prev)).sum
    resolvedViolations := (rules.map (ruleResolvedCount prev)).sum
    unchanged := (rules.map (ruleUnchangedCount prev)).sum }

/-- An entry of `fullyResolvedRules` (`diffRules.js:107-111`). -/
structure ResolvedRule where
  id : String
  friendlyName : String
  impact : String
deriving Repr, DecidableEq

/-- `diffRules.js:101-114`: previous rules whose id is absent from the
current rule set, reduced to id / display name / prior impact. -/
def fullyResolvedRulesOf (prev : Option (List DRule)) (rules : List DRule)
    (friendlyNames : String → Option String) : List ResolvedRule :=
  match prev with
  | none => []
  | some rs =>
    (rs.filter (fun pr => decide (¬ rules.any (fun r => r.id = pr.id)))).map
      (fun pr => { id := pr.id, friendlyName := (friendlyNames pr.id).getD pr.id, impact := pr.impact })

structure DiffResult where
  rules : List DRule
  diffTotals : DiffTotals
  fullyResolvedRules : List ResolvedRule
deriving Repr, DecidableEq

/-- `diffRules` (`diffRules.js:24-117`). `prevAudit` is the parsed previous
snapshot; `none` models a missing or unparseable file. `friendlyNames`
models the `friendlyNames` object (key lookup). -/
def diffRules (rules : List DRule) (prevAudit : Option (List DRule))
    (friendlyNames : String → Option String) : DiffResult :=
  { rules := rules.map (diffOneRule prevAudit)
    diffTotals := diffTotalsOf prevAudit rules
    fullyResolvedRules := fullyResolvedRulesOf prevAudit rules friendlyNames }

/-- State-passing view of one call to `diffRules`. The caller's `rules`
array is the store; the body assigns `rule.diff = …` (`diffRules.js:67`),
`rule.isNewRule = …` (`:74`) and `rule.occurrences = …` (`:84`) on each
element of that array in place and returns the very same array
(`return { rules, … }`, `:116`), so the post-call store is the returned
`rules` list, not the pristine input. -/
def diffRulesCall (store : List DRule) (prevAudit : Option (List DRule))
    (friendlyNames : String → Option String) : DiffResult × List DRule :=
  let res := diffRules store prevAudit friendlyNames
  (res, res.rules)

/-! ## RuleAggregator (`lib/aggregate/aggregateRules.js`) -/

/-- One matched element of a raw Axe violation (`{ html, target }`). -/
structure AxNode where
  html : String
  target : List String
deriving Repr, DecidableEq

/-- One raw Axe violation on one page. Rule metadata other than `id` and
`impact` (description, helpUrl, tags) is carried through the aggregation
unchanged and never inspected by the engine, so it is not modelled. -/
structure RawViolation where
  id : String
  impact : String
  nodes : List AxNode
deriving Repr, DecidableEq

/-- One raw per-page scan record. `violations := none` models a page that
carries only an error marker (`{ url, error }`, as pushed by
`lib/runAudit.js` on a failed scan): `pageResult.violations || []` then
yields the empty list. -/
structure PageResult where
  url : String
  violations : Option (List RawViolation)
deriving Repr, DecidableEq

/-- An aggregated occurrence (`aggregateRules.js:35-39`). -/
structure Occ where
  page : String
  html : String
  target : String
deriving Repr, DecidableEq

/-- A `rulesMap` entry (`aggregateRules.js:22-28`): `uniquePages` is a JS
`Set`, kept in insertion order (hence nodup by construction). -/
structure BaseRule where
  id : String
  impact : String
  occurrences : List Occ
  uniquePages : List String
deriving Repr, DecidableEq

/-- JS `Set.add`: append if absent. -/
def addUnique (l : List String) (x : String) : List String :=
  if x ∈ l then l else l ++ [x]

/-- Processing one violation of one page (`aggregateRules.js:21-41`):
insert a fresh map entry at the end if the rule id is new (JS `Map`
preserves insertion order), record the page in `uniquePages`, and append
one occurrence per node. `sc` is the injected `stripChildren` function. -/
def updateMap (sc : String → String) (pageUrl : String) (m : List BaseRule)
    (v : RawViolation) : List BaseRule :=
  let occs := v.nodes.map (fun node =>
    { page := pageUrl, html := sc node.html, target := joinSep " > " node.target })
  if m.any (fun e => e.id = v.id) then
    m.map (fun e =>
      if e.id = v.id then
        { e with uniquePages := addUnique e.uniquePages pageUrl
                 occurrences := e.occurrences ++ occs }
      else e)
  else
    m ++ [{ id := v.id, impact := v.impact, occurrences := occs, uniquePages := [pageUrl] }]

/-- The `rulesMap` after the double `forEach` of `aggregateRules.js:17-42`,
as the insertion-ordered list of its values. -/
def rulesMapOf (sc : String → String) (rawResults : List PageResult) : List BaseRule :=
  rawResults.foldl
    (fun m p => (p.violations.getD []).foldl (updateMap sc p.url) m) []

/-- `totalOccurrencesCount` (`aggregateRules.js:11`, incremented once per
node at `:34`). -/
def totalOccurrencesOf (rawResults : List PageResult) : Nat :=
  (rawResults.map (fun p =>
    ((p.violations.getD []).map (fun v => v.nodes.length)).sum)).sum

/-- `parseFloat(density.toFixed(2))` (`aggregateRules.js:57`): the stored
density is the ratio rounded to two decimals. `toFixed` rounds half away
from zero, which for the nonnegative densities here is round half up,
modelled exactly on the rational ratio; the JS applies it to the binary
double approximation of the ratio, whose representation error at an exact
`.xx5` tie is a floating-point artifact outside this embedding. -/
def jsToFixed2 (q : ℚ) : ℚ :=
  (round (q * 100) : ℤ) / 100

/-- An enriched rule (`aggregateRules.js:45-61`), still carrying
`uniquePages` for the sort/summary logic. `density` is the ratio
`pagesAffected / totalPages` rounded to two decimals by `jsToFixed2`. -/
structure ARule where
  id : String
  impact : String
  occurrences : List Occ
  uniquePages : List String
  pagesAffected : Nat
  density : ℚ
  isSystemic : Bool
deriving Repr, DecidableEq

def enrichRule (totalPages : Nat) (r : BaseRule) : ARule :=
  let pa := r.uniquePages.length
  { id := r.id
    impact := r.impact
    occurrences := r.occurrences
    uniquePages := r.uniquePages
    pagesAffected := pa
    density := jsToFixed2 (if totalPages > 0 then (pa : ℚ) / totalPages else 0)
    isSystemic := decide (totalPages > 1) && decide (pa = totalPages) }

/-- `IMPACT_ORDER` with the `?? 99` fallback (`aggregateRules.js:15`,
`:66-67`). -/
def impactRank (impact : String) : Nat :=
  if impact = "critical" then 0
  else if impact = "serious" then 1
  else if impact = "moderate" then 2
  else if impact = "minor" then 3
  else 99

/-- The three-level comparator of `aggregateRules.js:64-75`. -/
def cmpARule (a b : ARule) : Int :=
  if impactRank a.impact ≠ impactRank b.impact then
    (impactRank a.impact : Int) - (impactRank b.impact : Int)
  else if a.isSystemic ≠ b.isSystemic then
    (if a.isSystemic then -1 else 1)
  else
    (b.occurrences.length : Int) - (a.occurrences.length : Int)

/-- `Array.prototype.sort` is stable; a stable sort with comparator `cmp`
keeps `a` before `b` exactly when `cmp a b ≤ 0`. -/
def aggSorted (rules : List ARule) : List ARule :=
  rules.mergeSort (fun a b => decide (cmpARule a b ≤ 0))

/-- The final returned rule shape: `uniquePages` (and the Axe `nodes`)
are stripped (`aggregateRules.js:89`). -/
structure OutRule where
  id : String
  impact : String
  occurrences : List Occ
  pagesAffected : Nat
  density : ℚ
  isSystemic : Bool
deriving Repr, DecidableEq

def stripRule (r : ARule) : OutRule :=
  { id := r.id, impact := r.impact, occurrences := r.occurrences,
    pagesAffected := r.pagesAffected, density := r.density, isSystemic := r.isSystemic }

/-- JS `Math.round(100 * num / den)` for nonnegative operands and
`den > 0`, computed exactly (round half up). -/
def jsRoundPct (num den : Nat) : Nat :=
  (200 * num + den) / (2 * den)

structure AggSummary where
  topRulesNames : List String
  violationPercentage : Nat
  pagePercentage : Nat
deriving Repr, DecidableEq

structure AggResult where
  rules : List OutRule
  summary : AggSummary
deriving Repr, DecidableEq

/-- `aggregateRules` (`aggregateRules.js:9-100`). -/
def aggregateRules (sc : String → String) (rawResults : List PageResult) : AggResult :=
  let totalOcc := totalOccurrencesOf rawResults
  let totalPages := rawResults.length
  let allRules := aggSorted ((rulesMapOf sc rawResults).map (enrichRule totalPages))
  let topRules := allRules.take 5
  let priorityOcc := (topRules.map (fun r => r.occurrences.length)).sum
  let priorityPages := jsSet ((topRules.map (fun r => r.uniquePages)).flatten)
  { rules := allRules.map stripRule
    summary :=
      { topRulesNames := topRules.map (fun r => r.id)
        violationPercentage := if totalOcc > 0 then jsRoundPct priorityOcc totalOcc else 0
        pagePercentage := if totalPages > 0 then jsRoundPct priorityPages.length totalPages else 0 } }

/-! ## PriorityRanker and `prioritySummary` (processing scripts) -/

/-- A rule as consumed by the priority block of the processing scripts:
the enriched aggregated rule, of which only `impact` and the occurrence
pages/count are inspected. -/
structure PRule where
  id : String
  impact : String
  occurrences : List Occ
deriving Repr, DecidableEq

/-- The priority `IMPACT_WEIGHTS` object. The lookup
`IMPACT_WEIGHTS[rule.impact]` is `undefined` (`none`) for any impact
outside the four listed keys — there is no fallback in the script. -/
def priorityImpactWeight (impact : String) : Option Nat :=
  if impact = "critical" then some 10000
  else if impact = "serious" then some 1000
  else if impact = "moderate" then some 100
  else if impact = "minor" then some 10
  else none

/-- `new Set(rule.occurrences.map(o => o.page)).size`. -/
def uniquePageCount (r : PRule) : Nat :=
  (jsSet (r.occurrences.map (fun o => o.page))).length

/-- `rule.priorityScore = IMPACT_WEIGHTS[rule.impact] + uniquePages`:
adding `undefined` to a number yields `NaN` in JS, modelled as `none`. -/
def priorityScore (r : PRule) : Option Nat :=
  (priorityImpactWeight r.impact).map (fun w => w + uniquePageCount r)

/-- Descending stable sort by `priorityScore` followed by `.slice(0, 5)`.
The JS comparator `b.priorityScore - a.priorityScore` is a well-defined
descending comparator exactly when every score is a number; a `NaN` score
makes the engine's sort order unspecified, so the theorems about this
definition assume every impact is recognized (`getD 0` is then never
exercised on a `none`). -/
def priorityRules (rules : List PRule) : List PRule :=
  (rules.mergeSort (fun a b =>
    decide ((priorityScore b).getD 0 ≤ (priorityScore a).getD 0))).take 5

/-- `totalOccurrencesOverall = rules.reduce((acc, r) => acc + r.occurrences.length, 0)`. -/
def totalOccurrencesOverall (rules : List PRule) : Nat :=
  (rules.map (fun r => r.occurrences.length)).sum

/-- `priorityOccurrencesCount`: occurrences of the five priority rules. -/
def priorityOccurrencesCount (rules : List PRule) : Nat :=
  ((priorityRules rules).map (fun r => r.occurrences.length)).sum

/-- `priorityPages.size`: distinct pages among the priority rules' occurrences. -/
def priorityPagesCount (rules : List PRule) : Nat :=
  (jsSet (((priorityRules rules).map (fun r => r.occurrences.map (fun o => o.page))).flatten)).length

/-- JS `Math.round(100 * num / den)` where the division may be by zero:
`0 / 0` is `NaN` and `n / 0` (`n > 0`) is `Infinity`, neither of which is
a (finite) natural number — both are modelled as `none`. -/
def jsRoundPctOpt (num den : Nat) : Option Nat :=
  if den = 0 then none else some (jsRoundPct num den)

/-- The guarded `prioritySummary` of the processing script that checks its
denominators (`totalOccurrencesOverall > 0 ? … : 0`,
`totalPagesAudited > 0 ? … : 0`): pair of
(`percentOfViolations`, `percentOfPages`). -/
def prioritySummaryGuarded (rules : List PRule) (totalPagesAudited : Nat) : Nat × Nat :=
  (if totalOccurrencesOverall rules > 0 then
      jsRoundPct (priorityOccurrencesCount rules) (totalOccurrencesOverall rules)
    else 0,
   if totalPagesAudited > 0 then
      jsRoundPct (priorityPagesCount rules) totalPagesAudited
    else 0)

/-- The unguarded `prioritySummary` of the other processing-script variant:
`Math.round((priorityOccurrencesCount / totalOccurrencesOverall) * 100)` and
`Math.round((priorityPages.size / totalPagesAudited) * 100)` with no
division-by-zero guard. -/
def prioritySummaryUnguarded (rules : List PRule) (totalPagesAudited : Nat) :
    Option Nat × Option Nat :=
  (jsRoundPctOpt (priorityOccurrencesCount rules) (totalOccurrencesOverall rules),
   jsRoundPctOpt (priorityPagesCount rules) totalPagesAudited)

/-- `totalPagesAudited = rawResults.length` in the processing scripts:
the raw length of the scan-record array, error-marker pages included. -/
def totalPagesAudited (rawResults : List PageResult) : Nat :=
  rawResults.length

/-! ## HistoryIndex (`lib/io/historyDiscovery.js`) -/

/-- The history `IMPACT_WEIGHTS` object combined with the `|| 1` fallback
used at both lookup sites (`historyDiscovery.js:45`, `:59`): an
unrecognized impact weighs 1. -/
def historyImpactWeight (impact : String) : Nat :=
  if impact = "critical" then 10
  else if impact = "serious" then 5
  else if impact = "moderate" then 2
  else if impact = "minor" then 1
  else 1

/-- A violation inside a legacy raw per-page history file;
`v.nodes?.length || 0` tolerates a missing `nodes` field. -/
structure HViolation where
  impact : String
  nodes : Option (List AxNode)
deriving Repr, DecidableEq

/-- A page of a legacy raw history file (`page.violations?.forEach`). -/
structure HPage where
  violations : Option (List HViolation)
deriving Repr, DecidableEq

/-- A rule of a processed-snapshot history file;
`r.occurrences?.length || 0` tolerates a missing `occurrences` field. -/
structure HRule where
  impact : String
  occurrences : Option (List Occ)
deriving Repr, DecidableEq

/-- The two shapes a history file can parse to (`historyDiscovery.js:40-63`):
a raw per-page array, or a processed object with a `rules` field. -/
inductive HistoryData where
  | raw (pages : List HPage)
  | processed (rules : List HRule)
deriving Repr, DecidableEq

/-- The accumulation loop of `getHistoryData` for one parsed file:
returns `(totalViolations, weightedTotal)`, i.e. the file's
`violationCount` and `totalPenalty`. -/
def historyTotals : HistoryData → Nat × Nat
  | HistoryData.raw pages =>
    pages.foldl (fun acc page =>
      (page.violations.getD []).foldl (fun acc v =>
        let count := (v.nodes.map (fun ns => ns.length)).getD 0
        (acc.1 + count, acc.2 + count * historyImpactWeight v.impact)) acc)
      (0, 0)
  | HistoryData.processed rules =>
    rules.foldl (fun acc r =>
      let count := (r.occurrences.map (fun os => os.length)).getD 0
      (acc.1 + count, acc.2 + count * historyImpactWeight r.impact)) (0, 0)

/-! ## Spec-side definitions (for refinement comparisons) and concrete inputs -/

/-- Modelled from the spec, for comparison with `getOccurrenceKey`:
"`normalize(page)` strips a trailing slash and any fragment" — i.e. both
removals apply, which is what removing the fragment first and the trailing
slash second achieves. -/
def specNormalize (page : String) : String :=
  stripTrailingSlash (takeUntilHash page)

/-- Modelled from the spec: the occurrence identity
`normalize(page) + '|' + ruleId + '|' + join(targetPath, '>')`, with the
code's selector join, isolating the `normalize` discrepancy. -/
def specOccurrenceKey (page ruleId : String) (target : Target) : String :=
  specNormalize page ++ "|" ++ ruleId ++ "|" ++ selectorOf target

/-- Modelled from the claim, for comparison with `historyTotals`:
`totalPenalty = Σ occurrences × weight(impact)` with the priority ranker's
weights (critical=10000, serious=1000, moderate=100, minor=10, 0 for an
unrecognized impact). -/
def specHistoryPenalty : HistoryData → Nat
  | HistoryData.raw pages =>
    (pages.map (fun p =>
      ((p.violations.getD []).map (fun v =>
        ((v.nodes.map (fun ns => ns.length)).getD 0) * (priorityImpactWeight v.impact).getD 0)).sum)).sum
  | HistoryData.processed rules =>
    (rules.map (fun r =>
      ((r.occurrences.map (fun os => os.length)).getD 0) * (priorityImpactWeight r.impact).getD 0)).sum

/-- Closed-form restatement of the weighted total actually accumulated by
`historyTotals` (the engine's fold), as a sum. -/
def historyPenaltySum : HistoryData → Nat
  | HistoryData.raw pages =>
    (pages.map (fun p =>
      ((p.violations.getD []).map (fun v =>
        ((v.nodes.map (fun ns => ns.length)).getD 0) * historyImpactWeight v.impact)).sum)).sum
  | HistoryData.processed rules =>
    (rules.map (fun r =>
      ((r.occurrences.map (fun os => os.length)).getD 0) * historyImpactWeight r.impact)).sum

/-- Closed-form restatement of the raw occurrence count accumulated by
`historyTotals`. -/
def historyCountSum : HistoryData → Nat
  | HistoryData.raw pages =>
    (pages.map (fun p =>
      ((p.violations.getD []).map (fun v =>
        (v.nodes.map (fun ns => ns.length)).getD 0)).sum)).sum
  | HistoryData.processed rules =>
    (rules.map (fun r => (r.occurrences.map (fun os => os.length)).getD 0)).sum

/-- A concrete current rule with one occurrence, diff fields absent. -/
def sampleRule : DRule :=
  { id := "r", impact := "serious",
    occurrences := [{ page := "http://s/a", target := Target.str "div" }] }

/-- A concrete processed-snapshot history file: one critical rule with one
occurrence. -/
def sampleHistory : HistoryData :=
  HistoryData.processed
    [{ impact := "critical", occurrences := some [{ page := "p", html := "", target := "t" }] }]

/-- A concrete rule with an unrecognized impact affecting three distinct
pages (for the priority-score claim). -/
def unknownImpactRule : PRule :=
  { id := "u", impact := "widget",
    occurrences := [{ page := "p1", html := "", target := "t" },
                    { page := "p2", html := "", target := "t" },
                    { page := "p3", html := "", target := "t" }] }

/-- The spec's priority example: (critical, 1 page), (serious, 5 pages),
(minor, 1 page). -/
def criticalRule : PRule :=
  { id := "c", impact := "critical", occurrences := [{ page := "p1", html := "", target := "t" }] }

def seriousRule : PRule :=
  { id := "s", impact := "serious",
    occurrences := [{ page := "p1", html := "", target := "t" },
                    { page := "p2", html := "", target := "t" },
                    { page := "p3", html := "", target := "t" },
                    { page := "p4", html := "", target := "t" },
                    { page := "p5", html := "", target := "t" }] }

def minorRule : PRule :=
  { id := "m", impact := "minor", occurrences := [{ page := "p6", html := "", target := "t" }] }

/-- A concrete scan record: one page with one violation with one node. -/
def samplePage : PageResult :=
  { url := "http://s/a",
    violations := some [{ id := "r", impact := "serious",
                          nodes := [{ html := "<img>", target := ["img"] }] }] }

/-- A concrete error-marker scan record (`{ url, error }`): no violations
field. -/
def errorPage : PageResult := { url := "http://s/broken", violations := none }

/-! ## Helper lemmas -/

theorem mem_jsSetGo {α : Type} [DecidableEq α] {y : α} :
    ∀ {l seen : List α}, y ∈ jsSetGo seen l ↔ (y ∈ l ∧ y ∉ seen)
  | [], seen => by simp [jsSetGo]
  | x :: xs, seen => by
    rw [jsSetGo]
    by_cases hx : x ∈ seen
    · rw [if_pos hx, mem_jsSetGo]
      constructor
      · exact fun h => ⟨List.mem_cons_of_mem _ h.1, h.2⟩
      · rintro ⟨hmem, hns⟩
        rcases List.mem_cons.mp hmem with rfl | hmem
        · exact absurd hx hns
        · exact ⟨hmem, hns⟩
    · rw [if_neg hx]
      simp only [List.mem_cons, mem_jsSetGo, List.mem_append, List.mem_singleton]
      by_cases hyx : y = x
      · subst hyx; simp [hx]
      · simp [hyx]

theorem mem_jsSet {α : Type} [DecidableEq α] {x : α} {l : List α} :
    x ∈ jsSet l ↔ x ∈ l := by
  simp [jsSet, mem_jsSetGo]

theorem jsSet_filter_mem {α : Type} [DecidableEq α] (l : List α) :
    (jsSet l).filter (fun x => decide (x ∈ l)) = jsSet l := by
  apply List.filter_eq_self.mpr
  intro x hx
  simpa using mem_jsSet.mp hx

theorem jsSet_filter_not_mem {α : Type} [DecidableEq α] (l : List α) :
    (jsSet l).filter (fun x => decide (x ∉ l)) = [] := by
  apply List.filter_eq_nil_iff.mpr
  intro x hx
  simpa using mem_jsSet.mp hx

/-! ## Claim theorems -/

/-- C3: with no previous snapshot (file absent or unparseable, i.e.
`prevAudit = null`), every rule gets `diff = {new := 0, resolved := 0,
unchanged := occurrence count, newPages := ∅}`, `isNewRule = false`, every
occurrence is annotated `isNewOccurrence = false` and `isNewPage = false`,
and `diffTotals.newViolations = 0`. -/
theorem c3_first_run_baseline (rules : List DRule) (friendlyNames : String → Option String) :
    (diffRules rules none friendlyNames).rules = rules.map (fun r =>
      { r with
        diff := some { new := 0, resolved := 0, unchanged := r.occurrences.length, newPages := [] }
        isNewRule := some false
        occurrences := r.occurrences.map (fun o =>
          { o with isNewOccurrence := some false, isNewPage := some false }) })
    ∧ (diffRules rules none friendlyNames).diffTotals.newViolations = 0 := by
  constructor
  · simp [diffRules, diffOneRule, ruleNewCount, ruleResolvedCount, ruleUnchangedCount,
      ruleNewPages, ruleIsNew, occKeys]
  · have h : List.map (ruleNewCount none) rules = rules.map (fun _ => 0) :=
      List.map_congr_left (fun r _ => rfl)
    simp [diffRules, diffTotalsOf, h]

/-- C2 counterexample: for `'http://s/p/#x'` the code strips the trailing
slash first (a no-op, the last character is `'x'`) and only then drops the
fragment, so the trailing slash survives in the key — the claim's
normalization (fragment and trailing slash both removed) predicts a
different key. -/
theorem c2_counterexample :
    getOccurrenceKey "http://s/p/#x" "r" (Target.str "t") = "http://s/p/|r|t" ∧
    specOccurrenceKey "http://s/p/#x" "r" (Target.str "t") = "http://s/p|r|t" ∧
    getOccurrenceKey "http://s/p/#x" "r" (Target.str "t") ≠
      specOccurrenceKey "http://s/p/#x" "r" (Target.str "t") := by
  refine ⟨by decide, by decide, by decide⟩

/-- C2 amended: the occurrence key is
`takeUntilHash (stripTrailingSlash page) ++ '|' ++ ruleId ++ '|' ++ selector`
— the trailing slash is removed before the fragment is cut, so the two
normalizations agree whenever the page URL has no `'#'`, but a trailing
slash standing immediately before a fragment is kept (e.g.
`'http://s/p/#x'` keys as `'http://s/p/|r|t'`). -/
theorem c2_amended :
    (∀ page ruleId target, getOccurrenceKey page ruleId target =
      takeUntilHash (stripTrailingSlash page) ++ "|" ++ ruleId ++ "|" ++ selectorOf target)
    ∧ (∀ page ruleId target, (∀ c ∈ page.data, c ≠ '#') →
        getOccurrenceKey page ruleId target = specOccurrenceKey page ruleId target)
    ∧ getOccurrenceKey "http://s/p/#x" "r" (Target.str "t") = "http://s/p/|r|t" := by
  refine ⟨fun _ _ _ => rfl, ?_, by decide⟩
  intro page ruleId target h
  have hcases : (stripTrailingSlash page).data = page.data ∨
      (stripTrailingSlash page).data = page.data.dropLast := by
    unfold stripTrailingSlash
    split
    · right; rfl
    · left; rfl
  have hsub : ∀ c ∈ (stripTrailingSlash page).data, c ≠ '#' := by
    intro c hc
    rcases hcases with hco | hco <;> rw [hco] at hc
    · exact h c hc
    · exact h c (page.data.dropLast_sublist.subset hc)
  have hpage : takeUntilHash page = page := by
    unfold takeUntilHash
    rw [List.takeWhile_eq_self_iff.mpr (fun c hc => by simpa using h c hc)]
  have hstrip : takeUntilHash (stripTrailingSlash page) = stripTrailingSlash page := by
    unfold takeUntilHash
    rw [List.takeWhile_eq_self_iff.mpr (fun c hc => by simpa using hsub c hc)]
  simp only [getOccurrenceKey, specOccurrenceKey, specNormalize, hpage, hstrip]

/-- C2 amended, witness. -/
theorem c2_amended_witness :
    getOccurrenceKey "http://s/p" "r" (Target.str "t") =
      specOccurrenceKey "http://s/p" "r" (Target.str "t") :=
  c2_amended.2.1 "http://s/p" "r" (Target.str "t") (by decide)

/-- C1 counterexample: `diffRules` mutates its input. After a call on a
store holding one pristine rule (no `diff`, no `isNewRule`, unannotated
occurrences), the caller's array element carries a `diff` record and a
rewritten occurrence list — the claim's post-state (`diff` still absent,
occurrences unchanged) is refuted. -/
theorem c1_counterexample :
    ((diffRulesCall [sampleRule] none (fun _ => none)).2.map (fun r => r.diff)) ≠ [none] ∧
    ((diffRulesCall [sampleRule] none (fun _ => none)).2.map (fun r => r.occurrences)) ≠
      [sampleRule.occurrences] := by
  refine ⟨by decide, by decide⟩

/-- C1 amended: `diffRules` is deterministic but not a pure transform on
its input array: it annotates each rule object of the caller's array in
place (setting `diff` and `isNewRule`, and replacing `occurrences` by
annotated copies) and returns that same array, so after the call the
caller's store is exactly the returned rule list, with every rule carrying
the diff data. -/
theorem c1_mutates_in_place (store : List DRule) (prevAudit : Option (List DRule))
    (friendlyNames : String → Option String) :
    (diffRulesCall store prevAudit friendlyNames).2 =
      (diffRulesCall store prevAudit friendlyNames).1.rules ∧
    ∀ r ∈ (diffRulesCall store prevAudit friendlyNames).2,
      r.diff.isSome ∧ r.isNewRule.isSome ∧
      ∀ o ∈ r.occurrences, o.isNewOccurrence.isSome ∧ o.isNewPage.isSome := by
  refine ⟨rfl, ?_⟩
  intro r hr
  simp only [diffRulesCall, diffRules, List.mem_map] at hr
  obtain ⟨r₀, _, rfl⟩ := hr
  refine ⟨by simp [diffOneRule], by simp [diffOneRule], ?_⟩
  intro o ho
  simp only [diffOneRule, List.mem_map] at ho
  obtain ⟨o₀, _, rfl⟩ := ho
  exact ⟨rfl, rfl⟩

/-- C1 amended, witness. -/
theorem c1_mutates_in_place_witness :
    (diffOneRule none sampleRule).diff.isSome ∧
    (diffOneRule none sampleRule).isNewRule.isSome ∧
    ∀ o ∈ (diffOneRule none sampleRule).occurrences,
      o.isNewOccurrence.isSome ∧ o.isNewPage.isSome :=
  (c1_mutates_in_place [sampleRule] none (fun _ => none)).2 (diffOneRule none sampleRule)
    (by simp [diffRulesCall, diffRules])

/-- C8: an aggregated rule is systemic exactly when it affects every
audited page and more than one page was audited; with a single audited
page no rule is systemic. -/
theorem c8_systemic_iff (sc : String → String) (rawResults : List PageResult) :
    ∀ r ∈ (aggregateRules sc rawResults).rules,
      (r.isSystemic = true ↔ (r.pagesAffected = rawResults.length ∧ 1 < rawResults.length)) := by
  intro r hr
  simp only [aggregateRules, List.mem_map] at hr
  obtain ⟨a, ha, rfl⟩ := hr
  rw [aggSorted, List.mem_mergeSort] at ha
  simp only [List.mem_map] at ha
  obtain ⟨b, hb, rfl⟩ := ha
  simp only [stripRule, enrichRule, Bool.and_eq_true, decide_eq_true_eq]
  tauto

unseal List.merge List.mergeSort Rat.mul Rat.inv Rat.add Rat.sub in
/-- C8, witness: a single-page audit; the only produced rule affects 1 of
1 pages yet is not systemic. -/
theorem c8_systemic_iff_witness :
    (({ id := "r", impact := "serious",
        occurrences := [{ page := "http://s/a", html := "<img>", target := "img" }],
        pagesAffected := 1, density := 1, isSystemic := false } : OutRule).isSystemic = true ↔
      (({ id := "r", impact := "serious",
          occurrences := [{ page := "http://s/a", html := "<img>", target := "img" }],
          pagesAffected := 1, density := 1, isSystemic := false } : OutRule).pagesAffected =
          [samplePage].length ∧ 1 < [samplePage].length)) :=
  c8_systemic_iff id [samplePage] _ (by decide)

/-- Accumulating a pair of counters over a list is summing two maps. -/
theorem foldl_pair_sum {α : Type} (f g : α → Nat) (l : List α) (a b : Nat) :
    l.foldl (fun acc x => (acc.1 + f x, acc.2 + g x)) (a, b) =
      (a + (l.map f).sum, b + (l.map g).sum) := by
  induction l generalizing a b with
  | nil => simp
  | cons x xs ih => simp [ih, Nat.add_assoc]

/-- The history accumulation loop computes, for either file shape, the raw
occurrence count and the weighted total as plain sums. -/
theorem historyTotals_eq (d : HistoryData) :
    historyTotals d = (historyCountSum d, historyPenaltySum d) := by
  cases d with
  | raw pages =>
    have hstep : (fun (acc : Nat × Nat) (page : HPage) =>
        (page.violations.getD []).foldl (fun acc v =>
          (acc.1 + (v.nodes.map (fun ns => ns.length)).getD 0,
           acc.2 + (v.nodes.map (fun ns => ns.length)).getD 0 * historyImpactWeight v.impact)) acc)
        = fun (acc : Nat × Nat) (page : HPage) =>
          (acc.1 + ((page.violations.getD []).map (fun v =>
              (v.nodes.map (fun ns => ns.length)).getD 0)).sum,
           acc.2 + ((page.violations.getD []).map (fun v =>
              (v.nodes.map (fun ns => ns.length)).getD 0 * historyImpactWeight v.impact)).sum) := by
      funext acc page
      rcases acc with ⟨a, b⟩
      rw [foldl_pair_sum]
    simp only [historyTotals, hstep]
    rw [foldl_pair_sum]
    simp [historyCountSum, historyPenaltySum]
  | processed rules =>
    simp only [historyTotals]
    rw [foldl_pair_sum]
    simp [historyCountSum, historyPenaltySum]

/-- C5 counterexample: a processed history file with one critical rule
carrying one occurrence. The code's `totalPenalty` is `1 × 10 = 10` (the
history table weighs critical at 10); the claim's formula with the
priority-ranker weights predicts `1 × 10000 = 10000`. -/
theorem c5_counterexample :
    (historyTotals sampleHistory).2 = 10 ∧
    specHistoryPenalty sampleHistory = 10000 ∧
    (historyTotals sampleHistory).2 ≠ specHistoryPenalty sampleHistory := by
  refine ⟨by decide, by decide, by decide⟩

/-- C5 amended: for both file shapes `totalPenalty` is
Σ occurrences × weight and `violationCount` is Σ occurrences, but with the
history table's own weights — critical=10, serious=5, moderate=2, minor=1 —
and an unrecognized impact weighing 1 (the `|| 1` fallback), not the
priority ranker's 10000/1000/100/10-with-0 scale. -/
theorem c5_history_penalty :
    (∀ d, historyTotals d = (historyCountSum d, historyPenaltySum d)) ∧
    historyImpactWeight "critical" = 10 ∧ historyImpactWeight "serious" = 5 ∧
    historyImpactWeight "moderate" = 2 ∧ historyImpactWeight "minor" = 1 ∧
    (∀ s, s ≠ "critical" → s ≠ "serious" → s ≠ "moderate" → s ≠ "minor" →
      historyImpactWeight s = 1) := by
  refine ⟨historyTotals_eq, rfl, rfl, rfl, rfl, ?_⟩
  intro s h1 h2 h3 h4
  simp [historyImpactWeight, h1, h2, h3, h4]

/-- C5 amended, witness. -/
theorem c5_history_penalty_witness :
    historyTotals sampleHistory = (historyCountSum sampleHistory, historyPenaltySum sampleHistory) ∧
    historyImpactWeight "widget" = 1 :=
  ⟨c5_history_penalty.1 sampleHistory,
   c5_history_penalty.2.2.2.2.2 "widget" (by decide) (by decide) (by decide) (by decide)⟩

/-- Appending one previous rule only affects lookups of its own id. -/
theorem lookupLast_append (rs : List DRule) (q : DRule) (id : String) :
    lookupLast (rs ++ [q]) id = if q.id = id then some q else lookupLast rs id := by
  simp [lookupLast, List.foldl_append]

/-- With pairwise-distinct rule ids, indexing the snapshot by id recovers
each rule. -/
theorem lookupLast_mem_nodup {rules : List DRule}
    (hnd : (rules.map (fun r => r.id)).Nodup) {r : DRule} (hr : r ∈ rules) :
    lookupLast rules r.id = some r := by
  induction rules using List.reverseRecOn with
  | nil => simp at hr
  | append_singleton rs q ih =>
    rw [List.map_append, List.nodup_append] at hnd
    rw [lookupLast_append]
    rcases List.mem_append.mp hr with h | h
    · have hne : q.id ≠ r.id := by
        intro he
        exact hnd.2.2 (List.mem_map_of_mem _ h) (by simp [he])
      rw [if_neg hne]
      exact ih hnd.1 h
    · have : r = q := by simpa using h
      subst this
      simp

/-- C7: diffing a rule set against a snapshot holding exactly the same
rules (and occurrences) yields `new = 0`, `resolved = 0`, `unchanged` =
the rule's distinct occurrence-key count, an empty `newPages`, all
occurrences annotated `isNewOccurrence = false` and `isNewPage = false`,
and zero new/resolved totals. The id-uniqueness hypothesis reflects the
aggregator's one-entry-per-rule-id output. -/
theorem c7_idempotent (rules : List DRule) (friendlyNames : String → Option String)
    (hnd : (rules.map (fun r => r.id)).Nodup) :
    (∀ r ∈ rules,
      (diffOneRule (some rules) r).diff =
        some { new := 0, resolved := 0, unchanged := (jsSet (occKeys r)).length, newPages := [] } ∧
      ∀ o ∈ (diffOneRule (some rules) r).occurrences,
        o.isNewOccurrence = some false ∧ o.isNewPage = some false)
    ∧ (diffRules rules (some rules) friendlyNames).diffTotals.newViolations = 0
    ∧ (diffRules rules (some rules) friendlyNames).diffTotals.resolvedViolations = 0 := by
  have hkey : ∀ r ∈ rules, prevKeySet (some rules) r.id = occKeys r := by
    intro r hr
    simp [prevKeySet, lookupLast_mem_nodup hnd hr]
  have h1 : ∀ r ∈ rules, ruleNewCount (some rules) r = 0 := by
    intro r hr
    simp [ruleNewCount, hkey r hr, jsSet_filter_not_mem, mem_jsSet]
  have h2 : ∀ r ∈ rules, ruleResolvedCount (some rules) r = 0 := by
    intro r hr
    simp [ruleResolvedCount, hkey r hr, jsSet_filter_not_mem, mem_jsSet]
  refine ⟨?_, ?_, ?_⟩
  · intro r hr
    have hlk := lookupLast_mem_nodup hnd hr
    have h3 : ruleUnchangedCount (some rules) r = (jsSet (occKeys r)).length := by
      simp [ruleUnchangedCount, hkey r hr, jsSet_filter_mem, mem_jsSet]
    have h4 : ruleNewPages (some rules) r = [] := by
      simp [ruleNewPages, hlk, jsSet_filter_not_mem, mem_jsSet]
    refine ⟨by simp [diffOneRule, h1 r hr, h2 r hr, h3, h4], ?_⟩
    intro o ho
    simp only [diffOneRule, List.mem_map] at ho
    obtain ⟨o₀, ho₀, rfl⟩ := ho
    constructor
    · have hmem : getOccurrenceKey o₀.page r.id o₀.target ∈ occKeys r :=
        List.mem_map_of_mem _ ho₀
      simp [hkey r hr, hmem]
    · simp [h4]
  · have : ∀ x ∈ rules.map (ruleNewCount (some rules)), x = 0 := by
      intro x hx
      obtain ⟨r, hr, rfl⟩ := List.mem_map.mp hx
      exact h1 r hr
    simpa [diffRules, diffTotalsOf] using List.sum_eq_zero this
  · have : ∀ x ∈ rules.map (ruleResolvedCount (some rules)), x = 0 := by
      intro x hx
      obtain ⟨r, hr, rfl⟩ := List.mem_map.mp hx
      exact h2 r hr
    simpa [diffRules, diffTotalsOf] using List.sum_eq_zero this

/-- C7, witness. -/
theorem c7_idempotent_witness :
    (diffOneRule (some [sampleRule]) sampleRule).diff =
      some { new := 0, resolved := 0, unchanged := (jsSet (occKeys sampleRule)).length,
             newPages := [] } ∧
    (diffRules [sampleRule] (some [sampleRule]) (fun _ => none)).diffTotals.newViolations = 0 :=
  ⟨((c7_idempotent [sampleRule] (fun _ => none) (by decide)).1 sampleRule (by decide)).1,
   (c7_idempotent [sampleRule] (fun _ => none) (by decide)).2.1⟩

/-- C9: a previous-snapshot rule whose id is absent from the current run
contributes nothing to the annotated rules or to `diffTotals` (in
particular nothing to `resolvedViolations`); it surfaces only as a
`fullyResolvedRules` record of id, display name and prior impact. Stated
as: appending such a rule to the previous snapshot leaves the annotated
rules and every total unchanged and appends exactly one resolved-rule
record. -/
theorem c9_absent_prev_rule (rules prevRules : List DRule) (q : DRule)
    (friendlyNames : String → Option String) (hq : q.id ∉ rules.map (fun r => r.id)) :
    (diffRules rules (some (prevRules ++ [q])) friendlyNames).rules =
      (diffRules rules (some prevRules) friendlyNames).rules
    ∧ (diffRules rules (some (prevRules ++ [q])) friendlyNames).diffTotals =
      (diffRules rules (some prevRules) friendlyNames).diffTotals
    ∧ (diffRules rules (some (prevRules ++ [q])) friendlyNames).fullyResolvedRules =
      (diffRules rules (some prevRules) friendlyNames).fullyResolvedRules ++
        [{ id := q.id, friendlyName := (friendlyNames q.id).getD q.id, impact := q.impact }] := by
  have hne : ∀ r ∈ rules, q.id ≠ r.id := by
    intro r hr he
    exact hq (he ▸ List.mem_map_of_mem _ hr)
  have hlk : ∀ r ∈ rules, lookupLast (prevRules ++ [q]) r.id = lookupLast prevRules r.id := by
    intro r hr
    rw [lookupLast_append, if_neg (hne r hr)]
  have hpk : ∀ r ∈ rules,
      prevKeySet (some (prevRules ++ [q])) r.id = prevKeySet (some prevRules) r.id := by
    intro r hr
    simp only [prevKeySet, hlk r hr]
  have hnew : ∀ r ∈ rules,
      ruleNewCount (some (prevRules ++ [q])) r = ruleNewCount (some prevRules) r := by
    intro r hr
    simp only [ruleNewCount, hpk r hr]
  have hres : ∀ r ∈ rules,
      ruleResolvedCount (some (prevRules ++ [q])) r = ruleResolvedCount (some prevRules) r := by
    intro r hr
    simp only [ruleResolvedCount, hpk r hr]
  have hunch : ∀ r ∈ rules,
      ruleUnchangedCount (some (prevRules ++ [q])) r = ruleUnchangedCount (some prevRules) r := by
    intro r hr
    simp only [ruleUnchangedCount, hpk r hr]
  have hnp : ∀ r ∈ rules,
      ruleNewPages (some (prevRules ++ [q])) r = ruleNewPages (some prevRules) r := by
    intro r hr
    simp only [ruleNewPages, hlk r hr]
  have hisnew : ∀ r ∈ rules,
      ruleIsNew (some (prevRules ++ [q])) r = ruleIsNew (some prevRules) r := by
    intro r hr
    simp [ruleIsNew, List.any_append, (hne r hr)]
  refine ⟨?_, ?_, ?_⟩
  · apply List.map_congr_left
    intro r hr
    simp only [diffOneRule, hnew r hr, hres r hr, hunch r hr, hnp r hr, hisnew r hr, hpk r hr]
  · simp only [diffRules, diffTotalsOf, DiffTotals.mk.injEq]
    refine ⟨?_, ?_, ?_⟩
    · exact congrArg List.sum (List.map_congr_left hnew)
    · exact congrArg List.sum (List.map_congr_left hres)
    · exact congrArg List.sum (List.map_congr_left hunch)
  · have hany : rules.any (fun r => r.id = q.id) = false := by
      rw [List.any_eq_false]
      intro r hr
      simpa using (hne r hr).symm
    have hq2 : ∀ x ∈ rules, ¬ x.id = q.id := fun r hr he => hne r hr he.symm
    simp [diffRules, fullyResolvedRulesOf, List.filter_append, List.filter_cons, hany, hq2]
    rw [if_pos hq2]
    simp

/-- C9, witness. -/
theorem c9_absent_prev_rule_witness :
    (diffRules [sampleRule]
        (some ([] ++ [{ id := "gone", impact := "minor", occurrences := [] }]))
        (fun _ => none)).fullyResolvedRules =
      (diffRules [sampleRule] (some []) (fun _ => none)).fullyResolvedRules ++
        [{ id := "gone", friendlyName := ((fun _ => none : String → Option String) "gone").getD "gone",
           impact := "minor" }] :=
  (c9_absent_prev_rule [sampleRule] [] { id := "gone", impact := "minor", occurrences := [] }
    (fun _ => none) (by decide)).2.2

/-- C4 counterexample: a rule with an unrecognized impact (`"widget"`)
spanning three distinct pages. `IMPACT_WEIGHTS[impact]` is `undefined`, so
`undefined + pagesAffected` is `NaN` (`none`) — not the numeric score
`pagesAffected = 3` the claim predicts. -/
theorem c4_counterexample :
    priorityScore unknownImpactRule ≠ some (uniquePageCount unknownImpactRule) ∧
    priorityScore unknownImpactRule = none ∧
    uniquePageCount unknownImpactRule = 3 := by
  refine ⟨by decide, by decide, by decide⟩

unseal List.merge List.mergeSort in
/-- C4 amended: for the four recognized impacts the score is
`weight + pagesAffected` with critical=10000, serious=1000, moderate=100,
minor=10, and the priority list is the first five of the stable descending
sort by score; but an unrecognized impact yields a `NaN` score (`none`),
not `pagesAffected`. Under the every-impact-recognized hypothesis (where
the JS comparator is well defined) the sort is a permutation of the rules,
pairwise descending in score; the spec's example scores and ranking hold. -/
theorem c4_priority_score (rules : List PRule)
    (h : ∀ r ∈ rules, (priorityImpactWeight r.impact).isSome) :
    (∀ r ∈ rules, ∃ w, priorityImpactWeight r.impact = some w ∧
        priorityScore r = some (w + uniquePageCount r))
    ∧ priorityImpactWeight "critical" = some 10000
    ∧ priorityImpactWeight "serious" = some 1000
    ∧ priorityImpactWeight "moderate" = some 100
    ∧ priorityImpactWeight "minor" = some 10
    ∧ priorityRules rules =
        (rules.mergeSort (fun a b =>
          decide ((priorityScore b).getD 0 ≤ (priorityScore a).getD 0))).take 5
    ∧ (rules.mergeSort (fun a b =>
          decide ((priorityScore b).getD 0 ≤ (priorityScore a).getD 0))).Perm rules
    ∧ (priorityRules rules).Pairwise (fun a b =>
          (priorityScore b).getD 0 ≤ (priorityScore a).getD 0)
    ∧ priorityScore criticalRule = some 10001
    ∧ priorityScore seriousRule = some 1005
    ∧ priorityScore minorRule = some 11
    ∧ priorityRules [criticalRule, seriousRule, minorRule] =
        [criticalRule, seriousRule, minorRule] := by
  refine ⟨?_, rfl, rfl, rfl, rfl, rfl, List.mergeSort_perm _ _, ?_,
    by decide, by decide, by decide, by decide⟩
  · intro r hr
    obtain ⟨w, hw⟩ := Option.isSome_iff_exists.mp (h r hr)
    exact ⟨w, hw, by simp [priorityScore, hw]⟩
  · have htrans : ∀ a b c : PRule,
        (decide ((priorityScore b).getD 0 ≤ (priorityScore a).getD 0)) = true →
        (decide ((priorityScore c).getD 0 ≤ (priorityScore b).getD 0)) = true →
        (decide ((priorityScore c).getD 0 ≤ (priorityScore a).getD 0)) = true := by
      intro a b c hab hbc
      simp only [decide_eq_true_eq] at *
      exact le_trans hbc hab
    have htotal : ∀ a b : PRule,
        ((decide ((priorityScore b).getD 0 ≤ (priorityScore a).getD 0)) ||
         (decide ((priorityScore a).getD 0 ≤ (priorityScore b).getD 0))) = true := by
      intro a b
      simpa using Nat.le_total ((priorityScore b).getD 0) ((priorityScore a).getD 0)
    have hs := List.sorted_mergeSort htrans htotal rules
    have hp : (priorityRules rules).Pairwise (fun a b =>
        (decide ((priorityScore b).getD 0 ≤ (priorityScore a).getD 0)) = true) :=
      hs.sublist (List.take_sublist _ _)
    exact hp.imp (fun hab => by simpa using hab)

/-- C4 amended, witness. -/
theorem c4_priority_score_witness :
    ∃ w, priorityImpactWeight criticalRule.impact = some w ∧
      priorityScore criticalRule = some (w + uniquePageCount criticalRule) :=
  (c4_priority_score [criticalRule] (by decide)).1 criticalRule (by decide)

unseal List.merge List.mergeSort in
/-- C6 counterexample: the processing-script variant whose
`prioritySummary` has no division guard. With no rules (so zero
occurrences and zero pages) both percentages are `Math.round(0/0) = NaN`
(`none`), not the `0` the claim requires. -/
theorem c6_counterexample :
    (prioritySummaryUnguarded [] 0).1 = none ∧
    (prioritySummaryUnguarded [] 0).2 = none ∧
    (prioritySummaryUnguarded [] 0).1 ≠ some 0 := by
  refine ⟨by decide, by decide, by decide⟩

/-- C6 amended: the aggregation summary and the guarded script variant
return 0 on a zero denominator (no division is attempted), but the other
script variant computes the division unguarded: with zero total
occurrences its `percentOfViolations` is `NaN` (none), and with zero pages
audited its `percentOfPages` is `NaN`/`Infinity` (none) — no exception is
thrown in either variant. -/
theorem c6_division_guards :
    (∀ sc rawResults, totalOccurrencesOf rawResults = 0 →
       (aggregateRules sc rawResults).summary.violationPercentage = 0)
    ∧ (∀ sc (rawResults : List PageResult), rawResults.length = 0 →
       (aggregateRules sc rawResults).summary.pagePercentage = 0)
    ∧ (∀ rules tp, totalOccurrencesOverall rules = 0 →
       (prioritySummaryGuarded rules tp).1 = 0)
    ∧ (∀ rules, (prioritySummaryGuarded rules 0).2 = 0)
    ∧ (∀ rules tp, totalOccurrencesOverall rules = 0 →
       (prioritySummaryUnguarded rules tp).1 = none)
    ∧ (∀ rules, (prioritySummaryUnguarded rules 0).2 = none) := by
  refine ⟨?_, ?_, ?_, ?_, ?_, ?_⟩
  · intro sc rawResults h
    simp [aggregateRules, h]
  · intro sc rawResults h
    simp [aggregateRules, h]
  · intro rules tp h
    simp [prioritySummaryGuarded, h]
  · intro rules
    simp [prioritySummaryGuarded]
  · intro rules tp h
    simp [prioritySummaryUnguarded, jsRoundPctOpt, h]
  · intro rules
    simp [prioritySummaryUnguarded, jsRoundPctOpt]

/-- C6 amended, witness. -/
theorem c6_division_guards_witness :
    (aggregateRules id []).summary.violationPercentage = 0 ∧
    (prioritySummaryGuarded [] 0).1 = 0 ∧
    (prioritySummaryUnguarded [] 0).1 = none :=
  ⟨c6_division_guards.1 id [] (by decide),
   c6_division_guards.2.2.1 [] 0 (by decide),
   c6_division_guards.2.2.2.2.1 [] 0 (by decide)⟩

/-- `Set.add` keeps the page list nonempty, duplicate-free, and inside a
given universe of urls. -/
theorem addUnique_inv {l : List String} {x : String} {urls : List String}
    (hnd : l.Nodup) (hsub : ∀ p ∈ l, p ∈ urls) (hx : x ∈ urls) :
    addUnique l x ≠ [] ∧ (addUnique l x).Nodup ∧ ∀ p ∈ addUnique l x, p ∈ urls := by
  unfold addUnique
  split
  · next h => exact ⟨List.ne_nil_of_mem h, hnd, hsub⟩
  · next h =>
    refine ⟨by simp, by simp [List.nodup_append, hnd, h], ?_⟩
    intro p hp
    rcases List.mem_append.mp hp with hp | hp
    · exact hsub p hp
    · rw [List.mem_singleton] at hp
      exact hp ▸ hx

/-- `updateMap` preserves the uniquePages invariant (nonempty, nodup,
contained in the processed urls), provided the page's url is in scope. -/
theorem updateMap_inv (sc : String → String) {u : String} {urls : List String}
    (hu : u ∈ urls) {m : List BaseRule} (v : RawViolation)
    (hm : ∀ b ∈ m, b.uniquePages ≠ [] ∧ b.uniquePages.Nodup ∧ ∀ p ∈ b.uniquePages, p ∈ urls) :
    ∀ b ∈ updateMap sc u m v,
      b.uniquePages ≠ [] ∧ b.uniquePages.Nodup ∧ ∀ p ∈ b.uniquePages, p ∈ urls := by
  intro b hb
  unfold updateMap at hb
  split at hb
  · obtain ⟨e, he, rfl⟩ := List.mem_map.mp hb
    obtain ⟨h1, h2, h3⟩ := hm e he
    split
    · exact addUnique_inv h2 h3 hu
    · exact ⟨h1, h2, h3⟩
  · rcases List.mem_append.mp hb with hbm | hbq
    · exact hm b hbm
    · rw [List.mem_singleton] at hbq
      subst hbq
      exact ⟨by simp, by simp, by simpa using hu⟩

/-- One page's violations keep the invariant. -/
theorem violations_foldl_inv (sc : String → String) (u : String) (urls : List String)
    (hu : u ∈ urls) :
    ∀ (vs : List RawViolation) (m : List BaseRule),
      (∀ b ∈ m, b.uniquePages ≠ [] ∧ b.uniquePages.Nodup ∧ ∀ p ∈ b.uniquePages, p ∈ urls) →
      ∀ b ∈ vs.foldl (updateMap sc u) m,
        b.uniquePages ≠ [] ∧ b.uniquePages.Nodup ∧ ∀ p ∈ b.uniquePages, p ∈ urls
  | [], m, hm => hm
  | v :: vs, m, hm => by
    rw [List.foldl_cons]
    exact violations_foldl_inv sc u urls hu vs (updateMap sc u m v) (updateMap_inv sc hu v hm)

/-- The aggregation fold keeps every rule's page set nonempty, nodup, and
within the urls of the processed records. -/
theorem rulesMap_foldl_inv (sc : String → String) :
    ∀ (rs : List PageResult) (m : List BaseRule) (urls : List String),
      (∀ b ∈ m, b.uniquePages ≠ [] ∧ b.uniquePages.Nodup ∧ ∀ p ∈ b.uniquePages, p ∈ urls) →
      ∀ b ∈ rs.foldl (fun m p => (p.violations.getD []).foldl (updateMap sc p.url) m) m,
        b.uniquePages ≠ [] ∧ b.uniquePages.Nodup ∧
        ∀ p ∈ b.uniquePages, p ∈ urls ++ rs.map (fun x => x.url)
  | [], m, urls, hm => by simpa using hm
  | p :: ps, m, urls, hm => by
    rw [List.foldl_cons]
    have hstep := violations_foldl_inv sc p.url (urls ++ [p.url]) (by simp)
      (p.violations.getD []) m
      (fun b hb => by
        obtain ⟨h1, h2, h3⟩ := hm b hb
        exact ⟨h1, h2, fun q hq => List.mem_append_left _ (h3 q hq)⟩)
    have := rulesMap_foldl_inv sc ps
      ((p.violations.getD []).foldl (updateMap sc p.url) m) (urls ++ [p.url]) hstep
    intro b hb
    obtain ⟨h1, h2, h3⟩ := this b hb
    refine ⟨h1, h2, fun q hq => ?_⟩
    have := h3 q hq
    simp only [List.map_cons, List.append_assoc, List.singleton_append] at this ⊢
    exact this

/-- Every aggregated rule affects at least one and at most `rs.length`
pages. -/
theorem rulesMapOf_pages_bounds (sc : String → String) (rs : List PageResult) :
    ∀ b ∈ rulesMapOf sc rs,
      1 ≤ b.uniquePages.length ∧ b.uniquePages.length ≤ rs.length := by
  intro b hb
  have h := rulesMap_foldl_inv sc rs [] [] (by simp) b hb
  obtain ⟨h1, h2, h3⟩ := h
  constructor
  · exact List.length_pos.mpr h1
  · calc b.uniquePages.length = b.uniquePages.toFinset.card :=
        (List.toFinset_card_of_nodup h2).symm
      _ ≤ (rs.map (fun x => x.url)).toFinset.card := Finset.card_le_card (fun x hx => by
          rw [List.mem_toFinset] at *
          simpa using h3 x hx)
      _ ≤ (rs.map (fun x => x.url)).length := List.toFinset_card_le _
      _ = rs.length := List.length_map _ _

/-- Decimal rounding to two places is monotone. -/
theorem jsToFixed2_mono {x y : ℚ} (h : x ≤ y) : jsToFixed2 x ≤ jsToFixed2 y := by
  unfold jsToFixed2
  have h1 : round (x * 100) ≤ round (y * 100) := by
    rw [round_eq, round_eq]
    exact Int.floor_le_floor (by nlinarith)
  have h2 : ((round (x * 100) : ℤ) : ℚ) ≤ ((round (y * 100) : ℤ) : ℚ) := by
    exact_mod_cast h1
  exact div_le_div_of_nonneg_right h2 (by norm_num)

unseal List.merge List.mergeSort Rat.mul Rat.inv Rat.add Rat.sub in
/-- C10 counterexample to "a page that failed to scan still lowers every
rule's density": a rule on 1 of 20 audited pages stores density
`toFixed2(1/20) = 0.05`; after an error-marker page joins, `1/21` also
rounds to `0.05` — the stored density of that rule is unchanged, not
lowered. -/
theorem c10_counterexample :
    ((aggregateRules id (samplePage :: List.replicate 19 errorPage)).rules.map
        (fun r => r.density)) = [1/20]
    ∧ ((aggregateRules id ((samplePage :: List.replicate 19 errorPage) ++ [errorPage])).rules.map
        (fun r => r.density)) = [1/20] := by
  refine ⟨by decide, by decide⟩

/-- C10 amended: the page denominator counts every raw entry, error-marker
pages included. Appending a failed-scan record (`{url, error}`, no
violations) (a) bumps `totalPagesAudited` to the raw length, (b) adds
nothing to the aggregated rule map, and (c) recomputes every rule's
density as the two-decimal rounding of the ratio over the larger
denominator — which never increases the stored density but can leave it
equal when the rounding absorbs the change — and evaluates the systemic
check against the larger total, so no rule can be systemic any more (its
pages all come from the original records). -/
theorem c10_error_page_counted (sc : String → String) (rs : List PageResult) (u : String) :
    totalPagesAudited (rs ++ [{ url := u, violations := none }]) = rs.length + 1
    ∧ rulesMapOf sc (rs ++ [{ url := u, violations := none }]) = rulesMapOf sc rs
    ∧ ∀ r' ∈ (aggregateRules sc (rs ++ [{ url := u, violations := none }])).rules,
        r'.density = jsToFixed2 ((r'.pagesAffected : ℚ) / (rs.length + 1))
        ∧ r'.isSystemic = false
        ∧ ∃ r ∈ (aggregateRules sc rs).rules,
            r.id = r'.id ∧ r.pagesAffected = r'.pagesAffected
            ∧ r.density = jsToFixed2 ((r.pagesAffected : ℚ) / rs.length)
            ∧ r'.density ≤ r.density := by
  have hmap : rulesMapOf sc (rs ++ [{ url := u, violations := none }]) = rulesMapOf sc rs := by
    simp [rulesMapOf, List.foldl_append]
  refine ⟨by simp [totalPagesAudited], hmap, ?_⟩
  intro r' hr'
  simp only [aggregateRules, aggSorted, List.mem_map, List.mem_mergeSort] at hr'
  obtain ⟨a, ⟨b, hb, rfl⟩, rfl⟩ := hr'
  rw [hmap] at hb
  obtain ⟨hpa1, hpa2⟩ := rulesMapOf_pages_bounds sc rs b hb
  have hlen : (rs ++ [({ url := u, violations := none } : PageResult)]).length = rs.length + 1 := by
    simp
  have hn1 : 1 ≤ rs.length := le_trans hpa1 hpa2
  refine ⟨?_, ?_, ?_⟩
  · simp [stripRule, enrichRule, hlen]
  · have : b.uniquePages.length ≠ rs.length + 1 := by omega
    simp [stripRule, enrichRule, hlen, this]
  · refine ⟨stripRule (enrichRule rs.length b), ?_, rfl, rfl, ?_, ?_⟩
    · simp only [aggregateRules, aggSorted, List.mem_map, List.mem_mergeSort]
      exact ⟨enrichRule rs.length b, ⟨b, hb, rfl⟩, rfl⟩
    · simp only [stripRule, enrichRule]
      rw [if_pos (by omega)]
    · have hq1 : (0 : ℚ) < b.uniquePages.length := by
        exact_mod_cast hpa1
      have hq2 : (0 : ℚ) < rs.length := by
        exact_mod_cast hn1
      have hq3 : (rs.length : ℚ) < rs.length + 1 := by norm_num
      have hd := div_lt_div_of_pos_left hq1 hq2 hq3
      simp only [stripRule, enrichRule, hlen]
      rw [if_pos (by omega), if_pos (by omega)]
      apply jsToFixed2_mono
      push_cast
      exact hd.le

unseal List.merge List.mergeSort Rat.mul Rat.inv Rat.add Rat.sub in
/-- C10 amended, witness: one successful page plus one failed page; the
rule found on the only successful page stores density
`toFixed2(1/2) = 0.5` (denominator 2, counting the error page) and is not
systemic. -/
theorem c10_error_page_counted_witness :
    ({ id := "r", impact := "serious",
       occurrences := [{ page := "http://s/a", html := "<img>", target := "img" }],
       pagesAffected := 1, density := 1/2, isSystemic := false } : OutRule).density =
      jsToFixed2 (((1 : ℕ) : ℚ) / ([samplePage].length + 1)) ∧
    ({ id := "r", impact := "serious",
       occurrences := [{ page := "http://s/a", html := "<img>", target := "img" }],
       pagesAffected := 1, density := 1/2, isSystemic := false } : OutRule).isSystemic = false :=
  have h := (c10_error_page_counted id [samplePage] "http://s/broken").2.2
    ({ id := "r", impact := "serious",
       occurrences := [{ page := "http://s/a", html := "<img>", target := "img" }],
       pagesAffected := 1, density := 1/2, isSystemic := false } : OutRule) (by decide)
  ⟨h.1, h.2.1⟩
